import Mathlib

/-!
Verification of the go-tunol request-multiplexing core against its
natural-language specification.  Go strings are modelled as `List Char`
(`GoStr`), byte slices as `List Nat` (`Bytes`), and Go maps as association
lists with Go lookup/insert/delete semantics.  Each gateway or agent
function is translated from the corresponding Go source function.
-/

deriving instance DecidableEq for Except

namespace GoTunol

abbrev GoStr := List Char

abbrev Bytes := List Nat

/-- Coerces a Lean string literal into the `List Char` model of Go strings. -/
def str (s : String) : GoStr := s.toList

/-- Boolean test that the first list is a leading segment of the second;
models Go `strings.HasPrefix(second, first)` (and the prefix relation on
byte slices). -/
def pfxOf {α : Type} [BEq α] : List α → List α → Bool
  | [], _ => true
  | _ :: _, [] => false
  | a :: as, b :: bs => a == b && pfxOf as bs

/-- Models Go `strings.TrimPrefix s pre`: drop `pre` from the front of `s`
when present, otherwise return `s` unchanged. -/
def stripPre (s pre : GoStr) : GoStr :=
  if pfxOf pre s then s.drop pre.length else s

/-- Models Go `strings.ToLower` restricted to ASCII, which is all the source
compares (header names and values). -/
def toLowerS (s : GoStr) : GoStr := s.map Char.toLower

/-- Models Go `strings.EqualFold` restricted to ASCII. -/
def eqFold (a b : GoStr) : Bool := toLowerS a == toLowerS b

/-- Models Go `strings.Contains s sub`. -/
def containsSub (sub : GoStr) : GoStr → Bool
  | [] => sub == []
  | c :: rest => pfxOf sub (c :: rest) || containsSub sub rest

/-- Boolean membership in a list of Go strings; models a Go
`map[string]bool` allow-list lookup. -/
def memb (a : GoStr) : List GoStr → Bool
  | [] => false
  | x :: xs => x == a || memb a xs

/-- Models Go `strings.Split s sep` for a single-character separator. -/
def splitOnChar (sep : Char) : GoStr → List GoStr
  | [] => [[]]
  | c :: rest =>
    if c == sep then [] :: splitOnChar sep rest
    else
      match splitOnChar sep rest with
      | [] => [[c]]
      | s :: ss => (c :: s) :: ss

/-- Models Go `strings.Join l sep` for a single-character separator. -/
def joinChar (sep : Char) : List GoStr → GoStr
  | [] => []
  | [s] => s
  | s :: ss => s ++ sep :: joinChar sep ss

/-- Go map lookup on an association list: first binding wins. -/
def alGet {κ α : Type} [BEq κ] (k : κ) : List (κ × α) → Option α
  | [] => none
  | p :: m => if p.1 == k then some p.2 else alGet k m

/-- Go map delete on an association list. -/
def alErase {κ α : Type} [BEq κ] (k : κ) : List (κ × α) → List (κ × α)
  | [] => []
  | p :: m => if p.1 == k then alErase k m else p :: alErase k m

/-- Go map insert on an association list: the new binding shadows and
removes any previous binding for the same key. -/
def alInsert {κ α : Type} [BEq κ] (k : κ) (v : α) (m : List (κ × α)) :
    List (κ × α) :=
  (k, v) :: alErase k m

/-- Keeps only the bindings whose key satisfies `keep`. -/
def alFilterK {κ α : Type} (keep : κ → Bool) : List (κ × α) → List (κ × α)
  | [] => []
  | p :: m => if keep p.1 then p :: alFilterK keep m else alFilterK keep m

section ALLemmas

variable {κ α : Type} [BEq κ] [LawfulBEq κ]

theorem alGet_alErase_self (k : κ) (m : List (κ × α)) :
    alGet k (alErase k m) = none := by
  induction m with
  | nil => rfl
  | cons p m ih =>
    by_cases h : p.1 == k
    · simp [alErase, h, ih]
    · simp [alErase, h, alGet, ih]

theorem alGet_alErase_ne (k k' : κ) (m : List (κ × α)) (h : k' ≠ k) :
    alGet k' (alErase k m) = alGet k' m := by
  induction m with
  | nil => rfl
  | cons p m ih =>
    by_cases hp : p.1 == k
    · have hk : p.1 = k := by simpa using hp
      have : (p.1 == k') = false := by
        simp [hk]
        exact fun hc => h hc.symm
      simp [alErase, hp, alGet, this, ih]
    · simp [alErase, hp, alGet, ih]

theorem alGet_alInsert_self (k : κ) (v : α) (m : List (κ × α)) :
    alGet k (alInsert k v m) = some v := by
  simp [alInsert, alGet]

theorem alGet_alInsert_ne (k k' : κ) (v : α) (m : List (κ × α)) (h : k' ≠ k) :
    alGet k' (alInsert k v m) = alGet k' m := by
  have : (k == k') = false := by
    simp
    exact fun hc => h hc.symm
  simp [alInsert, alGet, this, alGet_alErase_ne k k' m h]

theorem alGet_alFilterK (keep : κ → Bool) (k : κ) (m : List (κ × α))
    (h : keep k = true) : alGet k (alFilterK keep m) = alGet k m := by
  induction m with
  | nil => rfl
  | cons p m ih =>
    by_cases hpk : p.1 == k
    · have hk : p.1 = k := by simpa using hpk
      simp [alFilterK, hk, h, alGet, ih]
    · by_cases hkeep : keep p.1
      · simp [alFilterK, hkeep, alGet, hpk, ih]
      · simp [alFilterK, hkeep, alGet, hpk, ih]

theorem mem_of_mem_alErase (k : κ) (p : κ × α) (m : List (κ × α))
    (h : p ∈ alErase k m) : p ∈ m := by
  induction m with
  | nil => simpa [alErase] using h
  | cons q m ih =>
    by_cases hq : q.1 == k
    · simp [alErase, hq] at h
      exact List.mem_cons_of_mem q (ih h)
    · simp [alErase, hq] at h
      rcases h with h | h
      · simp [h]
      · exact List.mem_cons_of_mem q (ih h)

end ALLemmas

theorem memb_eq_true_iff_mem (a : GoStr) (l : List GoStr) :
    memb a l = true ↔ a ∈ l := by
  induction l with
  | nil => simp [memb]
  | cons x xs ih =>
    simp [memb, ih]
    constructor
    · rintro (h | h)
      · exact Or.inl h.symm
      · exact Or.inr h
    · rintro (h | h)
      · exact Or.inl h.symm
      · exact Or.inr h

/-! ### Frame protocol (internal/proto)

The Go `proto.Message` carries a type tag and an untyped JSON payload that
every handler re-marshals into the struct matching the tag; frames whose
payload decodes are the only ones the claims concern, so a frame is
modelled as a tagged variant. -/

/-- Payload of a `proto.HTTPRequest` frame. -/
structure HTTPRequestP where
  method : GoStr
  path : GoStr
  body : Bytes
  headers : List (GoStr × GoStr)
  requestId : GoStr
deriving DecidableEq

/-- Payload of a `proto.HTTPResponse` frame. -/
structure HTTPResponseP where
  statusCode : Nat
  headers : List (GoStr × GoStr)
  body : Bytes
  requestId : GoStr
deriving DecidableEq

/-- One frame of the wire protocol (`proto.Message` with its payload). -/
inductive Msg
  | ping
  | pong
  | tunnelReq (localPort : Nat)
  | tunnelResp (url : GoStr)
  | httpRequest (r : HTTPRequestP)
  | httpResponse (r : HTTPResponseP)
  | errorMsg (e : GoStr)
deriving DecidableEq

/-! ### Id generation (`generateID` in the server package) -/

/-- The id alphabet of `generateID`. -/
def idCharset : GoStr := str "abcdefghjkmnpqrstuvwxyz23456789"

/-- Maps one random source byte to an id character, exactly as
`charset[randByte[0] % byte(len(charset))]` does: the byte (value < 256)
is reduced modulo the alphabet size 31 and used as an index. -/
def idChar (b : Nat) : Char :=
  idCharset.getD ((b % 256) % idCharset.length) 'a'

/-- Models `generateID`: the loop draws one byte from `crypto/rand` per
position and maps it through `idChar`; `rb` is the drawn byte sequence
(8 bytes in the source, where `length := 8`). -/
def generateID (rb : List Nat) : GoStr := rb.map idChar

theorem idCharset_length : idCharset.length = 31 := by decide

theorem idChar_mem_aux : ∀ k < 31, idCharset.getD k 'a' ∈ idCharset := by decide

theorem idChar_mem (b : Nat) : idChar b ∈ idCharset := by
  have h : (b % 256) % 31 < 31 := Nat.mod_lt _ (by norm_num)
  have := idChar_mem_aux ((b % 256) % 31) h
  simpa [idChar, idCharset_length] using this

/-- C8: every id produced by generateID is exactly 8 characters long, each
character drawn from the 31-character alphabet, and each position uniformly
distributed over that alphabet. COUNTEREXAMPLE to the uniformity part: with
the source byte ranging uniformly over its 256 values, 9 of them map to the
alphabet character `a` but only 8 map to `9`, because 256 = 8 * 31 + 8
(modulo bias of `randByte[0] % byte(len(charset))`). -/
theorem C8_generateID_uniform_counterexample :
    ((List.range 256).filter (fun b => idChar b == 'a')).length = 9 ∧
    ((List.range 256).filter (fun b => idChar b == '9')).length = 8 ∧
    (9 : Nat) ≠ 8 := by decide

/-- C8 (amended): every id produced by generateID from its 8 random source
bytes is exactly 8 characters long and each character is drawn from the
31-character alphabet `abcdefghjkmnpqrstuvwxyz23456789`; but positions are
not uniformly distributed: a character at alphabet index below 8 is produced
by exactly 9 of the 256 byte values while every other character is produced
by exactly 8 (modulo bias). -/
theorem C8_generateID_amended (rb : List Nat) (h : rb.length = 8) :
    (generateID rb).length = 8 ∧
    (∀ c ∈ generateID rb, c ∈ idCharset) ∧
    (∀ i < idCharset.length,
      ((List.range 256).filter
          (fun b => idChar b == idCharset.getD i 'a')).length =
        if i < 8 then 9 else 8) := by
  refine ⟨by simp [generateID, h], ?_, by decide⟩
  intro c hc
  rcases List.mem_map.1 hc with ⟨b, _, rfl⟩
  exact idChar_mem b

theorem C8_generateID_amended_witness :
    (generateID [0, 1, 2, 3, 4, 5, 6, 7]).length = 8 :=
  (C8_generateID_amended [0, 1, 2, 3, 4, 5, 6, 7] (by decide)).1

/-! ### URL parsing (`extractTunnelIDAndPath` and Go `url.Parse`) -/

/-- Models `url.Parse(urlStr).Path` on a percent-escape-free request URI:
the path is everything before the first query or fragment delimiter. -/
def urlPathOf (u : GoStr) : GoStr :=
  u.takeWhile (fun c => !(c == '?' || c == '#'))

/-- Models `extractTunnelIDAndPath`: in subdomain mode the tunnel id is the
leftmost host label and the remaining path is the full URL string; in path
mode the URL path is split on `/` after dropping one leading slash, the
first segment must be `local`, the second is the tunnel id, and the
remaining segments are re-joined as the remaining path. -/
def extractTunnelIDAndPath (urlStr host : GoStr) (useSubdomain : Bool) :
    Except GoStr (GoStr × GoStr) :=
  if useSubdomain then
    let parts := splitOnChar '.' host
    if parts.length < 2 then Except.error (str "invalid host: " ++ host)
    else Except.ok (parts.headD [], urlStr)
  else
    let segs := splitOnChar '/' (stripPre (urlPathOf urlStr) (str "/"))
    if segs.length < 2 || !(segs.headD [] == str "local") then
      Except.error (str "invalid local tunnel path format")
    else
      let tid := segs.tail.headD []
      if tid == ([] : GoStr) then Except.error (str "empty tunnel_id")
      else
        Except.ok
          (tid,
            if 2 < segs.length then '/' :: joinChar '/' (segs.drop 2)
            else [])

theorem splitOnChar_ne_nil (sep : Char) (l : GoStr) :
    splitOnChar sep l ≠ [] := by
  cases l with
  | nil => simp [splitOnChar]
  | cons c rest =>
    by_cases h : c == sep
    · simp [splitOnChar, h]
    · simp only [splitOnChar, h, Bool.false_eq_true, if_false]
      cases hs : splitOnChar sep rest with
      | nil => simp
      | cons s ss => simp

theorem splitOnChar_cons_sep (sep : Char) (l : GoStr) :
    splitOnChar sep (sep :: l) = [] :: splitOnChar sep l := by
  simp [splitOnChar]

theorem splitOnChar_append_no_sep (sep : Char) (a l : GoStr) (h : sep ∉ a) :
    splitOnChar sep (a ++ l) =
      (a ++ (splitOnChar sep l).headD []) :: (splitOnChar sep l).tail := by
  induction a with
  | nil =>
    simp only [List.nil_append]
    cases hs : splitOnChar sep l with
    | nil => exact absurd hs (splitOnChar_ne_nil sep l)
    | cons s ss => simp
  | cons c as ih =>
    have hcne : c ≠ sep := fun e => h (by rw [e]; exact List.mem_cons_self sep as)
    have hc : (c == sep) = false := beq_eq_false_iff_ne.mpr hcne
    have has : sep ∉ as := fun hm => h (List.mem_cons_of_mem c hm)
    simp only [List.cons_append, splitOnChar, hc, Bool.false_eq_true, if_false,
      List.append_eq]
    rw [ih has]

theorem splitOnChar_no_sep (sep : Char) (a : GoStr) (h : sep ∉ a) :
    splitOnChar sep a = [a] := by
  have := splitOnChar_append_no_sep sep a [] h
  simpa [splitOnChar] using this

theorem joinChar_splitOnChar (sep : Char) (l : GoStr) :
    joinChar sep (splitOnChar sep l) = l := by
  induction l with
  | nil => simp [splitOnChar, joinChar]
  | cons c rest ih =>
    by_cases h : c == sep
    · have hc : c = sep := by simpa using h
      rw [hc, splitOnChar_cons_sep]
      cases hs : splitOnChar sep rest with
      | nil => exact absurd hs (splitOnChar_ne_nil sep rest)
      | cons s ss =>
        rw [hs] at ih
        simp [joinChar, ih]
    · simp only [splitOnChar, h, Bool.false_eq_true, if_false]
      cases hs : splitOnChar sep rest with
      | nil => exact absurd hs (splitOnChar_ne_nil sep rest)
      | cons s ss =>
        rw [hs] at ih
        cases ss with
        | nil => simpa [joinChar] using congrArg (c :: ·) ih
        | cons s2 ss2 =>
          simp only [joinChar] at ih ⊢
          simp [ih]

theorem takeWhile_append_of_all (p : Char → Bool) (a l : GoStr)
    (h : ∀ c ∈ a, p c = true) :
    (a ++ l).takeWhile p = a ++ l.takeWhile p := by
  induction a with
  | nil => simp
  | cons c as ih =>
    have hc := h c (List.mem_cons_self c as)
    simp [List.takeWhile, hc, ih (fun x hx => h x (List.mem_cons_of_mem c hx))]

/-! ### Gateway state (`TunnelHandler` in internal/server) -/

/-- The server configuration fields the tunnel core reads
(`config.ServerConfig`). -/
structure ServerCfg where
  baseURL : GoStr
  port : GoStr
  useSubdomains : Bool

/-- Models `ServerConfig.SubdomainURL`: path-mode URLs are
`{base}[:{port}]/local/{id}` and subdomain-mode URLs are
`https://{id}.{base without scheme}`. -/
def subdomainURL (c : ServerCfg) (id : GoStr) : GoStr :=
  if !c.useSubdomains then
    if pfxOf (str "http://") c.baseURL then
      if c.port == ([] : GoStr) then c.baseURL ++ str "/local/" ++ id
      else c.baseURL ++ str ":" ++ c.port ++ str "/local/" ++ id
    else c.baseURL ++ str "/local/" ++ id
  else
    str "https://" ++ id ++ str "." ++
      stripPre (stripPre c.baseURL (str "https://")) (str "http://")

/-- One registry entry (`server.Tunnel`); the websocket connection is
identified by a number and times are abstract instants. -/
structure Tunnel where
  id : GoStr
  localPort : Nat
  wsConn : Nat
  path : GoStr
  lastActivity : Nat
  created : Nat
deriving DecidableEq

/-- The mutable state of a `TunnelHandler`: the tunnel registry and the
process-wide pending-request table (request id to one-shot channel; a
channel is represented by the presence of its key). -/
structure ThState where
  tunnels : List (GoStr × Tunnel)
  pendingRequests : List (GoStr × Unit)
deriving DecidableEq

/-- Result of processing one received frame in `handleWS`: the new handler
state, the frames sent back on the same connection, and the responses
delivered into pending-request channels. -/
structure StepResult where
  state : ThState
  sent : List Msg
  delivered : List (GoStr × HTTPResponseP)
deriving DecidableEq

/-- The `LastActivity` refresh `handleWS` performs before its switch when a
frame of type HTTPResponse arrives: every tunnel owned by this connection
is stamped with the current time. -/
def updateActivity (ws now : Nat) (ts : List (GoStr × Tunnel)) :
    List (GoStr × Tunnel) :=
  ts.map (fun p =>
    if p.2.wsConn == ws then (p.1, { p.2 with lastActivity := now }) else p)

/-- Models one iteration of the `handleWS` receive loop on connection `ws`
at time `now`, where `fid` is the id `generateID` returns if this message
allocates one: Ping is answered with Pong; Pong is only logged; a
TunnelRequest installs a new Tunnel under `fid` in the registry (plain map
assignment) and replies with its public URL; an HTTPResponse stamps the
connection's tunnels' `LastActivity` and then delivers to the pending slot
registered under its request id, if any, deleting the slot; every other
frame kind falls through to the logging default case. -/
def handleMsg (cfg : ServerCfg) (ws now : Nat) (fid : GoStr)
    (st : ThState) (m : Msg) : StepResult :=
  match m with
  | Msg.ping => ⟨st, [Msg.pong], []⟩
  | Msg.pong => ⟨st, [], []⟩
  | Msg.tunnelReq p =>
    let t : Tunnel := ⟨fid, p, ws, subdomainURL cfg fid, now, now⟩
    ⟨⟨alInsert fid t st.tunnels, st.pendingRequests⟩,
      [Msg.tunnelResp (subdomainURL cfg fid)], []⟩
  | Msg.httpResponse r =>
    let ts := updateActivity ws now st.tunnels
    match alGet r.requestId st.pendingRequests with
    | some _ =>
      ⟨⟨ts, alErase r.requestId st.pendingRequests⟩, [], [(r.requestId, r)]⟩
    | none => ⟨⟨ts, st.pendingRequests⟩, [], []⟩
  | _ => ⟨st, [], []⟩

/-- Models the deferred cleanup of `handleWS` when the receive loop exits
(EOF, decode error or transport error): every tunnel owned by the dead
connection is removed, and every pending request whose request id has such
a tunnel's id as a string prefix is closed and removed.  Returns the new
state and the list of closed request ids. -/
def teardownClean (ws : Nat) (st : ThState) : ThState × List GoStr :=
  let victims := st.tunnels.filter (fun p => p.2.wsConn == ws)
  let closedP := fun (rid : GoStr) => victims.any (fun p => pfxOf p.1 rid)
  (⟨st.tunnels.filter (fun p => !(p.2.wsConn == ws)),
      alFilterK (fun rid => !(closedP rid)) st.pendingRequests⟩,
    (st.pendingRequests.filter (fun q => closedP q.1)).map (fun q => q.1))

/-! ### WebSocket authentication (`extractToken`, `authenticateWebSocket`,
`HandleWS`) -/

/-- Models `TunnelHandler.extractToken`: the Authorization header value
(empty when absent) with a `Bearer ` marker stripped. -/
def extractToken (ah : GoStr) : GoStr :=
  if !(ah == ([] : GoStr)) then stripPre ah (str "Bearer ") else []

/-- Models `TunnelHandler.authenticateWebSocket` parametrised over the
external token service: `validate tok` is `(valid, reason)` as returned by
`tokenService.ValidateToken`.  Yields `some errText` on failure and `none`
on success. -/
def authenticateWebSocket (validate : GoStr → Bool × GoStr) (ah : GoStr) :
    Option GoStr :=
  let tok := extractToken ah
  if tok == ([] : GoStr) then some (str "no token provided")
  else
    let v := validate tok
    if !v.1 then some (str "invalid token: " ++ v.2) else none

/-- Result of one whole websocket connection handled by `HandleWS`. -/
structure ConnResult where
  sent : List Msg
  state : ThState
  reachedActive : Bool
  delivered : List (GoStr × HTTPResponseP)
  closed : List GoStr
deriving DecidableEq

/-- Folds `handleMsg` over the frames received on a connection; the oracle
supplies the observation time and the fresh `generateID` value for each
iteration. -/
def runMsgs (cfg : ServerCfg) (ws : Nat) :
    List (Nat × GoStr) → ThState → List Msg →
      ThState × List Msg × List (GoStr × HTTPResponseP)
  | _, st, [] => (st, [], [])
  | o, st, m :: ms =>
    let r := handleMsg cfg ws (o.headD (0, [])).1 (o.headD (0, [])).2 st m
    let rest := runMsgs cfg ws o.tail r.state ms
    (rest.1, r.sent ++ rest.2.1, r.delivered ++ rest.2.2)

/-- Models `TunnelHandler.HandleWS` for one connection: if authentication
fails the gateway sends exactly one Error frame and closes without ever
entering `handleWS`; otherwise the receive loop processes the frames
received before the stream ends (`msgs`) and the deferred cleanup runs. -/
def handleConn (cfg : ServerCfg) (validate : GoStr → Bool × GoStr)
    (ws : Nat) (ah : GoStr) (oracle : List (Nat × GoStr))
    (st : ThState) (msgs : List Msg) : ConnResult :=
  match authenticateWebSocket validate ah with
  | some e => ⟨[Msg.errorMsg e], st, false, [], []⟩
  | none =>
    let r := runMsgs cfg ws oracle st msgs
    let td := teardownClean ws r.1
    ⟨r.2.1, td.1, true, r.2.2, td.2⟩

/-! ### Public request handling (`TunnelHandler.ServeHTTP`) -/

/-- How the wait on the pending-request channel ends: a response is
delivered by `handleWS`; the channel is closed by teardown (the receive
then yields a nil pointer); or the 30-second timer fires first. -/
inductive WaitOutcome
  | delivered (resp : HTTPResponseP)
  | closedChan
  | timeout
deriving DecidableEq

/-- What `ServeHTTP` ends up writing to the public client: a normal
response, an `http.Error` with its status and text, the 404 page rendered
from the tunnel-not-found template, or a runtime panic (nil-pointer
dereference when the channel was closed). -/
inductive HttpResult
  | ok (status : Nat) (headers : List (GoStr × GoStr)) (body : Bytes)
  | httpError (status : Nat) (msg : GoStr)
  | notFound (tid : GoStr)
  | panicked
deriving DecidableEq

/-- The HTTP status the public client observes, `none` for a panic. -/
def statusOf : HttpResult → Option Nat
  | HttpResult.ok s _ _ => some s
  | HttpResult.httpError s _ => some s
  | HttpResult.notFound _ => some 404
  | HttpResult.panicked => none

/-- Go map lookup with the zero-value default, as `headers[k]` reads. -/
def lookupD (hs : List (GoStr × GoStr)) (k : GoStr) : GoStr :=
  (alGet k hs).getD []

/-- The gateway response-header allow-list (`responseHeadersToKeep`). -/
def baseKeep : List GoStr :=
  [str "content-type", str "content-length", str "set-cookie",
    str "location", str "cache-control", str "expires", str "etag",
    str "last-modified", str "vary", str "x-request-id", str "date",
    str "server", str "authorization"]

/-- The extra headers kept when the response is a WebSocket upgrade. -/
def wsKeep : List GoStr :=
  [str "connection", str "upgrade", str "sec-websocket-key",
    str "sec-websocket-version", str "sec-websocket-protocol",
    str "sec-websocket-extensions"]

/-- The `isWebSocketUpgrade` test on the agent response headers. -/
def isWsUpgradeResp (hs : List (GoStr × GoStr)) : Bool :=
  eqFold (lookupD hs (str "Upgrade")) (str "websocket") &&
    eqFold (lookupD hs (str "Connection")) (str "upgrade")

/-- The whole allow-list in force for a response. -/
def keepList (wsUp : Bool) : List GoStr :=
  baseKeep ++ (if wsUp then wsKeep else [])

/-- The `cleaned` header map `ServeHTTP` builds: only headers whose
lower-cased name is on the allow-list survive. -/
def cleanRespHeaders (hs : List (GoStr × GoStr)) : List (GoStr × GoStr) :=
  hs.filter (fun p => memb (toLowerS p.1) (keepList (isWsUpgradeResp hs)))

/-- Models `isGzipped`: the `Content-Encoding` value, lower-cased, contains
`gzip`. -/
def isGzipped (hs : List (GoStr × GoStr)) : Bool :=
  containsSub (str "gzip") (toLowerS (lookupD hs (str "Content-Encoding")))

/-- Models the response-writing tail of `ServeHTTP` once a response frame
is received, parametrised over the external gzip decoder `gz`
(`gzip.NewReader` plus `io.ReadAll`; `none` models a reader or read
error): on a gzipped response the `Content-Encoding` key is deleted from
the cleaned headers and the decoded bytes are written; otherwise the body
is passed through. -/
def writeResp (gz : Bytes → Option Bytes) (resp : HTTPResponseP) :
    HttpResult :=
  let cleaned := cleanRespHeaders resp.headers
  if isGzipped resp.headers then
    match gz resp.body with
    | none => HttpResult.httpError 500 (str "Internal Server Error")
    | some b =>
      HttpResult.ok resp.statusCode
        (alErase (str "Content-Encoding") cleaned) b
  else HttpResult.ok resp.statusCode cleaned resp.body

/-- The fixed wait deadline of `ServeHTTP`, from
`time.After(30 * time.Second)`. -/
def requestDeadlineSeconds : Nat := 30

/-- One inbound public HTTP request together with the environment facts
`ServeHTTP` encounters while handling it: whether reading the body
succeeds, whether the frame send on the tunnel's connection succeeds, and
how the wait on the response channel ends. -/
structure ServeInput where
  urlStr : GoStr
  host : GoStr
  method : GoStr
  headers : List (GoStr × List GoStr)
  bodyRead : Option Bytes
  sendOk : Bool
  outcome : WaitOutcome

/-- The `(tunnelId, realPath)` pair `ServeHTTP` works with: the extraction
result, or empty strings when extraction fails (the error is only
logged). -/
def routeParse (cfg : ServerCfg) (inp : ServeInput) : GoStr × GoStr :=
  match extractTunnelIDAndPath inp.urlStr inp.host cfg.useSubdomains with
  | Except.ok p => p
  | Except.error _ => ([], [])

/-- The header collapse `ServeHTTP` performs: `headers[k] = v[0]`. -/
def collapseHeaders (hs : List (GoStr × List GoStr)) :
    List (GoStr × GoStr) :=
  hs.map (fun p => (p.1, p.2.headD []))

/-- Outcome of `ServeHTTP`: what is written to the public client, the
handler state after the deferred slot deletion, and the frames sent to the
agent. -/
structure ServeResult where
  result : HttpResult
  state : ThState
  sentFrames : List Msg
deriving DecidableEq

/-- Models `TunnelHandler.ServeHTTP`: extract the tunnel id and remaining
path, look up the tunnel (missing means the 404 template), register a
fresh pending slot under `fid` (the `generateID` value), read the body,
send the HTTPRequest frame and wait; the deferred delete removes the slot
on every return path.  A closed channel delivers a nil response pointer
whose first field access panics. -/
def serveHTTP (cfg : ServerCfg) (gz : Bytes → Option Bytes) (st : ThState)
    (inp : ServeInput) (fid : GoStr) : ServeResult :=
  let tid := (routeParse cfg inp).1
  let realPath := (routeParse cfg inp).2
  match alGet tid st.tunnels with
  | none => ⟨HttpResult.notFound tid, st, []⟩
  | some _ =>
    let st1 : ThState := ⟨st.tunnels, alInsert fid () st.pendingRequests⟩
    let fin : ThState → ThState :=
      fun s => ⟨s.tunnels, alErase fid s.pendingRequests⟩
    match inp.bodyRead with
    | none =>
      ⟨HttpResult.httpError 500 (str "Failed to read request body"),
        fin st1, []⟩
    | some body =>
      let req : HTTPRequestP :=
        ⟨inp.method, realPath, body, collapseHeaders inp.headers, fid⟩
      if !inp.sendOk then
        ⟨HttpResult.httpError 500 (str "Failed to forward request"),
          fin st1, []⟩
      else
        match inp.outcome with
        | WaitOutcome.delivered resp =>
          ⟨writeResp gz resp, fin st1, [Msg.httpRequest req]⟩
        | WaitOutcome.closedChan =>
          ⟨HttpResult.panicked, fin st1, [Msg.httpRequest req]⟩
        | WaitOutcome.timeout =>
          ⟨HttpResult.httpError 504 (str "Request timed out"), fin st1,
            [Msg.httpRequest req]⟩

/-! ### Agent dispatcher (`manager.handleMessages` in internal/client) -/

/-- Models the error-hint computation after a local round-trip:
`errMsg = string(body[:30])` guarded by `resp.StatusCode > 400`, with
`"..."` appended when the body is longer than 30 bytes.  `body` comes from
`io.ReadAll`, whose result slice always has capacity of at least 512 backed
by zero-initialised memory, so `body[:30]` does not panic for short bodies:
it reads the body bytes followed by zero bytes up to index 30. -/
def errHint (statusCode : Nat) (body : Bytes) : Bytes :=
  if 400 < statusCode then
    let e := (body ++ List.replicate 30 0).take 30
    if 30 < body.length then e ++ [46, 46, 46] else e
  else []

/-- The observation event the dispatcher emits after a completed
round-trip (`client.RequestEvent`; the error field is the byte string of
`errMsg`). -/
structure RequestEvent where
  tunnelID : GoStr
  method : GoStr
  path : GoStr
  status : Nat
  error : Bytes
  connectionFailed : Bool
deriving DecidableEq

/-- The event `handleMessages` emits for one completed round-trip with
local response status `status` and body `body`. -/
def roundTripEvent (url : GoStr) (req : HTTPRequestP) (status : Nat)
    (body : Bytes) : RequestEvent :=
  ⟨url, req.method, req.path, status, errHint status body, false⟩

/-! ### Helper lemmas about `serveHTTP` -/

theorem serve_timeout_504 (cfg : ServerCfg) (gz : Bytes → Option Bytes)
    (st : ThState) (inp : ServeInput) (fid : GoStr) (tun : Tunnel)
    (b : Bytes) (ht : alGet (routeParse cfg inp).1 st.tunnels = some tun)
    (hb : inp.bodyRead = some b) (hs : inp.sendOk = true)
    (ho : inp.outcome = WaitOutcome.timeout) :
    (serveHTTP cfg gz st inp fid).result =
      HttpResult.httpError 504 (str "Request timed out") := by
  simp [serveHTTP, ht, hb, hs, ho]

theorem serve_pending_erased (cfg : ServerCfg) (gz : Bytes → Option Bytes)
    (st : ThState) (inp : ServeInput) (fid : GoStr) (tun : Tunnel)
    (ht : alGet (routeParse cfg inp).1 st.tunnels = some tun) :
    alGet fid (serveHTTP cfg gz st inp fid).state.pendingRequests = none := by
  simp only [serveHTTP, ht]
  cases hb : inp.bodyRead with
  | none => simp [alGet_alErase_self]
  | some b =>
    cases hs : inp.sendOk with
    | false => simp [alGet_alErase_self]
    | true =>
      cases ho : inp.outcome <;> simp [alGet_alErase_self]

/-- C4: a forwarded public request whose HTTPResponse frame does not arrive
within the fixed 30-second deadline is answered with 504 Gateway Timeout,
and on every exit path of the handler after the slot was registered
(response received, channel closed, deadline expired, or send/read error)
the PendingRequest slot is gone from the pending map when the handler
returns. -/
theorem C4_deadline_504_and_slot_removed (cfg : ServerCfg)
    (gz : Bytes → Option Bytes) (st : ThState) (inp : ServeInput)
    (fid : GoStr) (tun : Tunnel)
    (ht : alGet (routeParse cfg inp).1 st.tunnels = some tun) :
    requestDeadlineSeconds = 30 ∧
    (∀ b, inp.bodyRead = some b → inp.sendOk = true →
      inp.outcome = WaitOutcome.timeout →
      (serveHTTP cfg gz st inp fid).result =
        HttpResult.httpError 504 (str "Request timed out")) ∧
    alGet fid (serveHTTP cfg gz st inp fid).state.pendingRequests = none :=
  ⟨rfl,
    fun b hb hs ho => serve_timeout_504 cfg gz st inp fid tun b ht hb hs ho,
    serve_pending_erased cfg gz st inp fid tun ht⟩

theorem C4_deadline_504_and_slot_removed_witness :
    (serveHTTP ⟨str "http://localhost", str "8001", false⟩ (fun _ => none)
        ⟨[(str "abc123de", ⟨str "abc123de", 8000, 1, str "u", 0, 0⟩)], []⟩
        ⟨str "/local/abc123de/x", str "localhost:8001", str "GET", [],
          some [], true, WaitOutcome.timeout⟩ (str "req00001")).result =
      HttpResult.httpError 504 (str "Request timed out") :=
  (C4_deadline_504_and_slot_removed
      ⟨str "http://localhost", str "8001", false⟩ (fun _ => none)
      ⟨[(str "abc123de", ⟨str "abc123de", 8000, 1, str "u", 0, 0⟩)], []⟩
      ⟨str "/local/abc123de/x", str "localhost:8001", str "GET", [],
        some [], true, WaitOutcome.timeout⟩ (str "req00001")
      ⟨str "abc123de", 8000, 1, str "u", 0, 0⟩
      (by decide)).2.1 [] (by decide) (by decide) (by decide)

/-- C10: the pending-request table is global rather than per-Session: an
HTTPResponse frame carrying a registered request id, received on any
connection at any time, delivers to the slot and removes it, with no
ownership check; redelivering the same frame afterwards delivers
nothing, so a slot is delivered at most once. -/
theorem C10_pending_table_global (cfg : ServerCfg) (ws ws2 now now2 : Nat)
    (fid fid2 : GoStr) (st : ThState) (r : HTTPResponseP)
    (hp : alGet r.requestId st.pendingRequests = some ()) :
    (handleMsg cfg ws now fid st (Msg.httpResponse r)).delivered =
      [(r.requestId, r)] ∧
    alGet r.requestId
        (handleMsg cfg ws now fid st
          (Msg.httpResponse r)).state.pendingRequests = none ∧
    (handleMsg cfg ws2 now2 fid2
        (handleMsg cfg ws now fid st (Msg.httpResponse r)).state
        (Msg.httpResponse r)).delivered = [] := by
  refine ⟨by simp [handleMsg, hp], ?_, ?_⟩
  · simp [handleMsg, hp, alGet_alErase_self]
  · have h2 : alGet r.requestId
        (handleMsg cfg ws now fid st
          (Msg.httpResponse r)).state.pendingRequests = none := by
      simp [handleMsg, hp, alGet_alErase_self]
    generalize hS : (handleMsg cfg ws now fid st (Msg.httpResponse r)).state
        = s1 at h2 ⊢
    simp [handleMsg, h2]

theorem C10_pending_table_global_witness :
    (handleMsg ⟨str "http://localhost", str "8001", false⟩ 2 7 []
        ⟨[], [(str "req00001", ())]⟩
        (Msg.httpResponse ⟨200, [], [], str "req00001"⟩)).delivered =
      [(str "req00001", ⟨200, [], [], str "req00001"⟩)] :=
  (C10_pending_table_global ⟨str "http://localhost", str "8001", false⟩
      2 3 7 9 [] [] ⟨[], [(str "req00001", ())]⟩
      ⟨200, [], [], str "req00001"⟩ (by decide)).1

/-- C2: the claim says a TunnelRequest whose freshly generated id collides
with an id already in the tunnels map retries with a fresh id up to a
bound and never silently replaces the existing Tunnel.  COUNTEREXAMPLE:
with tunnel `abc123de` of connection 1 already registered, a TunnelRequest
on connection 2 whose `generateID` value is again `abc123de` simply
overwrites the registry entry with the new Tunnel and replies with a
normal TunnelResponse; the old Tunnel is silently dropped and no retry or
fatal error occurs. -/
theorem C2_tunnel_id_collision_counterexample :
    alGet (str "abc123de")
        (handleMsg ⟨str "http://localhost", str "8001", false⟩ 2 5
          (str "abc123de")
          ⟨[(str "abc123de", ⟨str "abc123de", 8000, 1, str "u1", 0, 0⟩)], []⟩
          (Msg.tunnelReq 3000)).state.tunnels =
      some ⟨str "abc123de", 3000, 2,
        str "http://localhost:8001/local/abc123de", 5, 5⟩ ∧
    (handleMsg ⟨str "http://localhost", str "8001", false⟩ 2 5
        (str "abc123de")
        ⟨[(str "abc123de", ⟨str "abc123de", 8000, 1, str "u1", 0, 0⟩)], []⟩
        (Msg.tunnelReq 3000)).sent =
      [Msg.tunnelResp (str "http://localhost:8001/local/abc123de")] := by
  decide

/-- C2 (amended): the gateway installs the `generateID` value into the
tunnels map without any collision check: the new Tunnel unconditionally
becomes the binding for that id (silently replacing any existing Tunnel
under it), a normal TunnelResponse carrying its URL is sent, entries under
every other id are untouched, and there is no retry or fatal path. -/
theorem C2_tunnel_insert_amended (cfg : ServerCfg) (ws now p : Nat)
    (fid : GoStr) (st : ThState) :
    alGet fid
        (handleMsg cfg ws now fid st (Msg.tunnelReq p)).state.tunnels =
      some ⟨fid, p, ws, subdomainURL cfg fid, now, now⟩ ∧
    (handleMsg cfg ws now fid st (Msg.tunnelReq p)).sent =
      [Msg.tunnelResp (subdomainURL cfg fid)] ∧
    (handleMsg cfg ws now fid st (Msg.tunnelReq p)).delivered = [] ∧
    (handleMsg cfg ws now fid st (Msg.tunnelReq p)).state.pendingRequests =
      st.pendingRequests ∧
    (∀ k, k ≠ fid →
      alGet k (handleMsg cfg ws now fid st (Msg.tunnelReq p)).state.tunnels =
        alGet k st.tunnels) := by
  refine ⟨?_, rfl, rfl, rfl, ?_⟩
  · simp [handleMsg, alGet_alInsert_self]
  · intro k hk
    simp [handleMsg, alGet_alInsert_ne fid k _ st.tunnels hk]

theorem C2_tunnel_insert_amended_witness :
    alGet (str "zz") (handleMsg ⟨str "http://localhost", str "8001", false⟩
        2 5 (str "abc123de")
        ⟨[(str "zz", ⟨str "zz", 80, 1, str "u", 0, 0⟩)], []⟩
        (Msg.tunnelReq 3000)).state.tunnels =
      alGet (str "zz")
        ([(str "zz", ⟨str "zz", 80, 1, str "u", 0, 0⟩)] :
          List (GoStr × Tunnel)) :=
  (C2_tunnel_insert_amended ⟨str "http://localhost", str "8001", false⟩
      2 5 3000 (str "abc123de")
      ⟨[(str "zz", ⟨str "zz", 80, 1, str "u", 0, 0⟩)], []⟩).2.2.2.2
    (str "zz") (by decide)

/-- C6: the claim says a Pong frame on an Active Session updates that
Session's tunnels' last_activity to the current time.  COUNTEREXAMPLE:
with a tunnel of connection 1 whose last_activity is 5, processing a Pong
frame on connection 1 at time 10 leaves the handler state completely
unchanged, so last_activity is still 5, not 10. -/
theorem C6_pong_activity_counterexample :
    (handleMsg ⟨str "http://localhost", str "8001", false⟩ 1 10 []
        ⟨[(str "t1aaa", ⟨str "t1aaa", 80, 1, str "u", 5, 0⟩)], []⟩
        Msg.pong).state =
      ⟨[(str "t1aaa", ⟨str "t1aaa", 80, 1, str "u", 5, 0⟩)], []⟩ ∧
    ((handleMsg ⟨str "http://localhost", str "8001", false⟩ 1 10 []
          ⟨[(str "t1aaa", ⟨str "t1aaa", 80, 1, str "u", 5, 0⟩)], []⟩
          Msg.pong).state.tunnels.headD
        (str "t1aaa", ⟨str "t1aaa", 80, 1, str "u", 5, 0⟩)).2.lastActivity =
      5 ∧
    (5 : Nat) ≠ 10 := by decide

/-- C6 (amended): a Pong frame is only logged and leaves the handler state
(including every last_activity) unchanged; a Ping frame is answered with
Pong, also without touching last_activity; last_activity advances to the
current time exactly when an HTTPResponse frame arrives on the owning
connection, and then for all tunnels of that connection. -/
theorem C6_last_activity_amended (cfg : ServerCfg) (ws now : Nat)
    (fid : GoStr) (st : ThState) (r : HTTPResponseP) :
    handleMsg cfg ws now fid st Msg.pong = ⟨st, [], []⟩ ∧
    handleMsg cfg ws now fid st Msg.ping = ⟨st, [Msg.pong], []⟩ ∧
    (∀ q ∈ (handleMsg cfg ws now fid st
        (Msg.httpResponse r)).state.tunnels,
      q.2.wsConn = ws → q.2.lastActivity = now) := by
  refine ⟨rfl, rfl, ?_⟩
  intro q hq hws
  have hts : (handleMsg cfg ws now fid st
      (Msg.httpResponse r)).state.tunnels = updateActivity ws now st.tunnels := by
    simp only [handleMsg]
    cases alGet r.requestId st.pendingRequests <;> simp
  rw [hts] at hq
  rcases List.mem_map.1 hq with ⟨p, hpm, hpe⟩
  by_cases h : p.2.wsConn == ws
  · rw [if_pos h] at hpe
    rw [← hpe]
  · rw [if_neg h] at hpe
    rw [← hpe] at hws
    exact absurd hws (by simpa using h)

theorem C6_last_activity_amended_witness :
    ((str "t1aaa", (⟨str "t1aaa", 80, 1, str "u", 10, 0⟩ : Tunnel)) :
        GoStr × Tunnel).2.lastActivity = 10 :=
  (C6_last_activity_amended ⟨str "http://localhost", str "8001", false⟩
      1 10 [] ⟨[(str "t1aaa", ⟨str "t1aaa", 80, 1, str "u", 5, 0⟩)], []⟩
      ⟨200, [], [], str "r1"⟩).2.2
    (str "t1aaa", ⟨str "t1aaa", 80, 1, str "u", 10, 0⟩) (by decide) rfl

/-- C1: the claim says tearing down the Session that owns a tunnel
resolves the waiting PendingRequest slot with a "session terminated"
outcome and the public caller receives 502 Bad Gateway.  COUNTEREXAMPLE:
with tunnel `abcd1234` owned by connection 1 and a public request waiting
on slot `zzzz9999`, tearing connection 1 down leaves the slot untouched
and closes nothing, because the cleanup only closes slots whose request id
has the dead tunnel's id as a string prefix and request ids are generated
independently of tunnel ids; the waiter is not resolved (and the handler
has no 502 path at all). -/
theorem C1_teardown_counterexample :
    (teardownClean 1
        ⟨[(str "abcd1234", ⟨str "abcd1234", 8000, 1, str "u", 0, 0⟩)],
          [(str "zzzz9999", ())]⟩).1.pendingRequests =
      [(str "zzzz9999", ())] ∧
    (teardownClean 1
        ⟨[(str "abcd1234", ⟨str "abcd1234", 8000, 1, str "u", 0, 0⟩)],
          [(str "zzzz9999", ())]⟩).2 = [] := by decide

/-- C1 (amended): Session teardown closes only the pending slots whose
request id has one of the torn-down session's tunnel ids as a string
prefix; every slot whose request id has no such prefix (the normal case,
since request ids are fresh `generateID` values unrelated to tunnel ids)
survives teardown unresolved, so the waiter stalls until the fixed
30-second deadline and the public caller receives 504 Gateway Timeout,
not 502. -/
theorem C1_teardown_amended (ws : Nat) (st : ThState) (q : GoStr)
    (hp : alGet q st.pendingRequests = some ())
    (hn : ∀ p ∈ st.tunnels, p.2.wsConn = ws → pfxOf p.1 q = false) :
    alGet q (teardownClean ws st).1.pendingRequests = some () ∧
    q ∉ (teardownClean ws st).2 ∧
    (∀ cfg gz st2 inp fid tun b,
      alGet (routeParse cfg inp).1 st2.tunnels = some tun →
      inp.bodyRead = some b → inp.sendOk = true →
      inp.outcome = WaitOutcome.timeout →
      (serveHTTP cfg gz st2 inp fid).result =
        HttpResult.httpError 504 (str "Request timed out")) := by
  have hcl : ((st.tunnels.filter (fun p => p.2.wsConn == ws)).any
      (fun p => pfxOf p.1 q)) = false := by
    rw [List.any_eq_false]
    intro p hpmem
    rcases List.mem_filter.1 hpmem with ⟨hmem, hws⟩
    simp [hn p hmem (by simpa using hws)]
  refine ⟨?_, ?_, ?_⟩
  · show alGet q (alFilterK _ st.pendingRequests) = some ()
    rw [alGet_alFilterK]
    · exact hp
    · simp [hcl]
  · intro hq
    simp only [teardownClean] at hq
    rcases List.mem_map.1 hq with ⟨r2, hrmem, hrq⟩
    rcases List.mem_filter.1 hrmem with ⟨hr2, hcp⟩
    rw [hrq] at hcp
    rw [hcl] at hcp
    exact Bool.false_ne_true hcp
  · intro cfg gz st2 inp fid tun b ht hb hs ho
    exact serve_timeout_504 cfg gz st2 inp fid tun b ht hb hs ho

theorem C1_teardown_amended_witness :
    alGet (str "zzzz9999")
      (teardownClean 1
          ⟨[(str "abcd1234", ⟨str "abcd1234", 8000, 1, str "u", 0, 0⟩)],
            [(str "zzzz9999", ())]⟩).1.pendingRequests = some () :=
  (C1_teardown_amended 1
      ⟨[(str "abcd1234", ⟨str "abcd1234", 8000, 1, str "u", 0, 0⟩)],
        [(str "zzzz9999", ())]⟩
      (str "zzzz9999") (by decide) (by decide)).1

/-- C5: if the bearer token on the WebSocket upgrade is missing or fails
validation, the gateway sends exactly one Error frame carrying the reason
and closes the stream: the connection never reaches the active receive
loop, none of its subsequent frames are processed, the handler state (and
hence the tunnel registry) is unchanged, and no response is ever delivered
or closed on its behalf; when the Authorization header is absent the reason
is `no token provided`. -/
theorem C5_auth_failure_closes (cfg : ServerCfg) (v : GoStr → Bool × GoStr)
    (ws : Nat) (ah : GoStr) (o : List (Nat × GoStr)) (st : ThState)
    (msgs : List Msg) (e : GoStr)
    (h : authenticateWebSocket v ah = some e) :
    handleConn cfg v ws ah o st msgs =
      ⟨[Msg.errorMsg e], st, false, [], []⟩ ∧
    (ah = [] → e = str "no token provided") := by
  constructor
  · simp [handleConn, h]
  · intro hah
    rw [hah] at h
    simp [authenticateWebSocket, extractToken] at h
    exact h.symm

theorem C5_auth_failure_closes_witness :
    handleConn ⟨str "http://localhost", str "8001", false⟩
        (fun _ => (true, [])) 1 [] [] ⟨[], []⟩ [Msg.tunnelReq 8000] =
      ⟨[Msg.errorMsg (str "no token provided")], ⟨[], []⟩, false, [],
        []⟩ :=
  (C5_auth_failure_closes ⟨str "http://localhost", str "8001", false⟩
      (fun _ => (true, [])) 1 [] [] ⟨[], []⟩ [Msg.tunnelReq 8000]
      (str "no token provided") (by decide)).1

theorem keepList_no_content_encoding (w : Bool) :
    str "content-encoding" ∉ keepList w := by
  cases w <;> decide

/-- C9: for an agent HTTPResponse whose headers carry
`Content-Encoding: gzip` and whose body is a valid gzip compression of
bytes `b` (rendered as: the gzip decoder yields `b` on it), the gateway
writes exactly `b` as the public response body, and no header whose
lower-cased name is `content-encoding` is forwarded to the public client
(the allow-list already excludes it and the gzip branch deletes it
besides). -/
theorem C9_gzip_roundtrip (cfg : ServerCfg) (gz : Bytes → Option Bytes)
    (st : ThState) (inp : ServeInput) (fid : GoStr) (tun : Tunnel)
    (resp : HTTPResponseP) (b bd : Bytes)
    (ht : alGet (routeParse cfg inp).1 st.tunnels = some tun)
    (hbd : inp.bodyRead = some bd) (hs : inp.sendOk = true)
    (ho : inp.outcome = WaitOutcome.delivered resp)
    (hgz : isGzipped resp.headers = true)
    (hdec : gz resp.body = some b) :
    (serveHTTP cfg gz st inp fid).result =
      HttpResult.ok resp.statusCode
        (alErase (str "Content-Encoding") (cleanRespHeaders resp.headers))
        b ∧
    ∀ p ∈ alErase (str "Content-Encoding") (cleanRespHeaders resp.headers),
      toLowerS p.1 ≠ str "content-encoding" := by
  constructor
  · simp [serveHTTP, ht, hbd, hs, ho, writeResp, hgz, hdec]
  · intro p hpmem heq
    have hm := mem_of_mem_alErase (str "Content-Encoding") p _ hpmem
    have hk := (List.mem_filter.1 hm).2
    have hkm := (memb_eq_true_iff_mem _ _).1 hk
    rw [heq] at hkm
    exact keepList_no_content_encoding _ hkm

theorem C9_gzip_roundtrip_witness :
    (serveHTTP ⟨str "http://localhost", str "8001", false⟩
        (fun bs => if bs == [31, 139, 8] then some [104, 105] else none)
        ⟨[(str "abc123de", ⟨str "abc123de", 8000, 1, str "u", 0, 0⟩)], []⟩
        ⟨str "/local/abc123de/x", str "localhost:8001", str "GET", [],
          some [], true,
          WaitOutcome.delivered
            ⟨200,
              [(str "Content-Encoding", str "gzip"),
                (str "Content-Type", str "text/plain")],
              [31, 139, 8], str "r1"⟩⟩
        (str "req00001")).result =
      HttpResult.ok 200
        (alErase (str "Content-Encoding")
          (cleanRespHeaders
            [(str "Content-Encoding", str "gzip"),
              (str "Content-Type", str "text/plain")]))
        [104, 105] :=
  (C9_gzip_roundtrip ⟨str "http://localhost", str "8001", false⟩
      (fun bs => if bs == [31, 139, 8] then some [104, 105] else none)
      ⟨[(str "abc123de", ⟨str "abc123de", 8000, 1, str "u", 0, 0⟩)], []⟩
      ⟨str "/local/abc123de/x", str "localhost:8001", str "GET", [],
        some [], true,
        WaitOutcome.delivered
          ⟨200,
            [(str "Content-Encoding", str "gzip"),
              (str "Content-Type", str "text/plain")],
            [31, 139, 8], str "r1"⟩⟩
      (str "req00001") ⟨str "abc123de", 8000, 1, str "u", 0, 0⟩
      ⟨200,
        [(str "Content-Encoding", str "gzip"),
          (str "Content-Type", str "text/plain")],
        [31, 139, 8], str "r1"⟩
      [104, 105] [] (by decide) (by decide) (by decide) (by decide)
      (by decide) (by decide)).1

/-- C7: the claim (and the spec) say that for a completed round-trip with
local status at least 400 the emitted RequestEvent's error field is a
truncated prefix of the response body of at most 30 characters, for every
body including ones shorter than 30 bytes.  The code instead computes
`string(body[:30])` before checking the length and guards it with
`> 400`: evaluating the code at the failing inputs shows that a 500
response with 4-byte body `oops` yields a 30-byte error field equal to the
body padded with 26 zero bytes read from the `io.ReadAll` buffer beyond
the body (not a prefix of the body); a response with status exactly 400
yields an empty error field; and a 31-byte body yields a 33-character
error field. -/
theorem C7_errHint_code_bug_eval :
    (roundTripEvent (str "u") ⟨str "GET", str "/", [], [], str "r1"⟩ 500
        [111, 111, 112, 115]).error =
      [111, 111, 112, 115] ++ List.replicate 26 0 ∧
    pfxOf
        (roundTripEvent (str "u") ⟨str "GET", str "/", [], [], str "r1"⟩
            500 [111, 111, 112, 115]).error
        ([111, 111, 112, 115] : Bytes) = false ∧
    (roundTripEvent (str "u") ⟨str "GET", str "/", [], [], str "r1"⟩ 400
        [98, 97, 100]).error = [] ∧
    (errHint 500 (List.replicate 31 97)).length = 33 := by decide

/-- C3: the claim says that in path mode the gateway forwards to the agent
a path equal to the remaining path with the original query string
included.  COUNTEREXAMPLE: for the public request
`/local/abc123de/x?q=1` the frame forwarded to the agent carries path
`/x`, not `/x?q=1`: the query string is dropped because the extraction
works on the parsed URL path only. -/
theorem C3_query_string_counterexample :
    (serveHTTP ⟨str "http://localhost", str "8001", false⟩ (fun _ => none)
        ⟨[(str "abc123de", ⟨str "abc123de", 8000, 1, str "u", 0, 0⟩)], []⟩
        ⟨str "/local/abc123de/x?q=1", str "localhost:8001", str "GET", [],
          some [], true, WaitOutcome.timeout⟩
        (str "req00001")).sentFrames =
      [Msg.httpRequest ⟨str "GET", str "/x", [], [], str "req00001"⟩] ∧
    str "/x" ≠ str "/x?q=1" := by decide

/-- C3 (amended): in path mode, for every inbound public request whose
path has the form `/local/{tunnel_id}{remaining_path}` (with an optional
query string after it), the gateway parses out that tunnel id and forwards
to the agent a path equal to the remaining path with the query string
stripped; every request whose path is not of that form makes extraction
fail, which routes the lookup to the empty tunnel id and (ids being
nonempty `generateID` strings) yields a 404 response. -/
theorem C3_path_mode_amended (tid rest query hst : GoStr)
    (h1 : tid ≠ [])
    (h2 : '/' ∉ tid) (h3 : '?' ∉ tid) (h4 : '#' ∉ tid)
    (h5 : rest = [] ∨ ∃ r, rest = '/' :: r)
    (h6 : '?' ∉ rest) (h7 : '#' ∉ rest)
    (h8 : query = [] ∨ ∃ qs, query = '?' :: qs) :
    extractTunnelIDAndPath (str "/local/" ++ tid ++ rest ++ query) hst
        false = Except.ok (tid, rest) ∧
    (∀ cfg gz st2 inp fid tun b,
      cfg.useSubdomains = false →
      extractTunnelIDAndPath inp.urlStr inp.host false =
        Except.ok (tid, rest) →
      alGet tid st2.tunnels = some tun →
      inp.bodyRead = some b → inp.sendOk = true →
      (serveHTTP cfg gz st2 inp fid).sentFrames =
        [Msg.httpRequest
          ⟨inp.method, rest, b, collapseHeaders inp.headers, fid⟩]) ∧
    (∀ cfg gz st2 inp fid e,
      cfg.useSubdomains = false →
      extractTunnelIDAndPath inp.urlStr inp.host false = Except.error e →
      alGet ([] : GoStr) st2.tunnels = none →
      statusOf (serveHTTP cfg gz st2 inp fid).result = some 404) := by
  have hslash : ∀ c ∈ str "/local/", (!(c == '?' || c == '#')) = true := by
    decide
  have hall : ∀ c ∈ str "/local/" ++ tid ++ rest,
      (!(c == '?' || c == '#')) = true := by
    intro c hc
    rcases List.mem_append.1 hc with hc | hc
    · rcases List.mem_append.1 hc with hc | hc
      · exact hslash c hc
      · have hcq : c ≠ '?' := fun e2 => h3 (e2 ▸ hc)
        have hch : c ≠ '#' := fun e2 => h4 (e2 ▸ hc)
        simp [hcq, hch]
    · have hcq : c ≠ '?' := fun e2 => h6 (e2 ▸ hc)
      have hch : c ≠ '#' := fun e2 => h7 (e2 ▸ hc)
      simp [hcq, hch]
  have hA : urlPathOf (str "/local/" ++ tid ++ rest ++ query) =
      str "/local/" ++ tid ++ rest := by
    unfold urlPathOf
    rw [takeWhile_append_of_all _ _ _ hall]
    rcases h8 with rfl | ⟨qs, rfl⟩
    · simp
    · simp [List.takeWhile]
  have hsegs : splitOnChar '/'
      (stripPre (str "/local/" ++ tid ++ rest) (str "/")) =
      str "local" :: splitOnChar '/' (tid ++ rest) := by
    have e1 : stripPre (str "/local/" ++ tid ++ rest) (str "/") =
        str "local" ++ ('/' :: (tid ++ rest)) := by
      show stripPre ('/' :: (str "local" ++ ('/' :: (tid ++ rest))))
          ['/'] = _
      simp [stripPre, pfxOf]
    rw [e1, splitOnChar_append_no_sep '/' (str "local") _ (by decide),
      splitOnChar_cons_sep]
    simp
  have htid : (tid == ([] : GoStr)) = false := beq_eq_false_iff_ne.mpr h1
  refine ⟨?_, ?_, ?_⟩
  · rcases h5 with rfl | ⟨r, rfl⟩
    · have hs2 : splitOnChar '/' (tid ++ ([] : GoStr)) = [tid] := by
        rw [List.append_nil]
        exact splitOnChar_no_sep '/' tid h2
      simp only [List.append_assoc, List.cons_append, List.append_nil]
        at hA hsegs hs2
      simp [extractTunnelIDAndPath, hA, hsegs, hs2, htid]
    · have hs2 : splitOnChar '/' (tid ++ '/' :: r) =
          tid :: splitOnChar '/' r := by
        rw [splitOnChar_append_no_sep '/' tid ('/' :: r) h2,
          splitOnChar_cons_sep]
        simp
      have hlen : 2 < (str "local" :: tid :: splitOnChar '/' r).length := by
        simp
        exact List.length_pos.2 (splitOnChar_ne_nil '/' r)
      simp only [List.append_assoc, List.cons_append, List.append_nil]
        at hA hsegs hs2 hlen
      have hpos : 0 < (splitOnChar '/' r).length :=
        List.length_pos.2 (splitOnChar_ne_nil '/' r)
      simp [extractTunnelIDAndPath, hA, hsegs, hs2, htid, hlen,
        joinChar_splitOnChar]
      rw [if_neg (by omega), if_pos hpos]
  · intro cfg gz st2 inp fid tun b hcfg hex ht hb hs
    have hroute : routeParse cfg inp = (tid, rest) := by
      simp [routeParse, hcfg, hex]
    cases ho : inp.outcome <;>
      simp [serveHTTP, hroute, ht, hb, hs, ho]
  · intro cfg gz st2 inp fid e hcfg hex hnone
    have hroute : routeParse cfg inp = ([], []) := by
      simp [routeParse, hcfg, hex]
    simp [serveHTTP, hroute, hnone, statusOf]

theorem C3_path_mode_amended_witness :
    extractTunnelIDAndPath
        (str "/local/" ++ str "ab" ++ str "/x" ++ str "?q=1")
        (str "localhost:8001") false = Except.ok (str "ab", str "/x") :=
  (C3_path_mode_amended (str "ab") (str "/x") (str "?q=1")
      (str "localhost:8001") (by decide) (by decide) (by decide)
      (by decide) (Or.inr ⟨str "x", rfl⟩) (by decide) (by decide)
      (Or.inr ⟨str "q=1", rfl⟩)).1
